import Mathlib

/-!
Verification of the Empathy Engine core pipeline (emotion fusion, vocal
parameter mapping with intensity scaling, audio post-processing order)
against its natural-language specification.

All float arithmetic of the source is embedded over `ℚ`: every constant in
the relevant code paths (0.05, 0.4, 0.7, ...) and every operation used
(addition, multiplication, comparison, clamping via min/max, absolute value)
is exact, so the rational embedding computes the same branch decisions and
the same values as the Python source on these code paths.
-/

set_option autoImplicit false
set_option linter.unusedVariables false

namespace EmpathyEngine

/-! ## Embedding of src/config.py -/

/-- One entry of `Config.EMOTION_MAPPINGS` (src/config.py lines 37-80). -/
structure EmotionProfile where
  rate : ℚ
  pitch : ℚ
  volume : ℚ
  description : String
deriving DecidableEq, Repr

namespace Config

/-- src/config.py line 32: `RATE_RANGE = (0.5, 2.0)`. -/
def RATE_RANGE : ℚ × ℚ := (0.5, 2.0)

/-- src/config.py line 33: `PITCH_RANGE = (0.5, 2.0)`. -/
def PITCH_RANGE : ℚ × ℚ := (0.5, 2.0)

/-- src/config.py line 34: `VOLUME_RANGE = (0.1, 1.0)`. -/
def VOLUME_RANGE : ℚ × ℚ := (0.1, 1.0)

/-- The `"neutral"` entry of `EMOTION_MAPPINGS` (src/config.py lines 74-79). -/
def neutralProfile : EmotionProfile :=
  ⟨1.0, 1.0, 0.8, "Calm, professional, natural"⟩

/-- src/config.py lines 37-80: the emotion-to-profile table, in source order. -/
def EMOTION_MAPPINGS : List (String × EmotionProfile) :=
  [("joy", ⟨1.05, 1.03, 0.85, "Happy, cheerful, natural enthusiasm"⟩),
   ("sadness", ⟨0.9, 0.95, 0.75, "Somber, melancholic, natural sadness"⟩),
   ("anger", ⟨1.02, 1.01, 0.9, "Intense, controlled anger"⟩),
   ("fear", ⟨1.08, 1.05, 0.8, "Anxious, nervous, natural fear"⟩),
   ("surprise", ⟨1.06, 1.08, 0.85, "Excited, astonished, natural surprise"⟩),
   ("disgust", ⟨0.95, 0.97, 0.8, "Contemptuous, dismissive, natural disgust"⟩),
   ("neutral", neutralProfile)]

/-- src/config.py lines 92-95: `EMOTION_MAPPINGS.get(emotion, EMOTION_MAPPINGS["neutral"])`. -/
def get_emotion_mapping (emotion : String) : EmotionProfile :=
  match EMOTION_MAPPINGS.lookup emotion with
  | some p => p
  | none => neutralProfile

/-- src/config.py lines 97-100: `max(0.1, min(2.0, intensity))`. -/
def validate_intensity (intensity : ℚ) : ℚ :=
  max 0.1 (min 2.0 intensity)

/-- src/config.py lines 102-112: clamp a named vocal parameter to its range;
unknown names are returned unchanged. -/
def validate_vocal_parameter (pname : String) (value : ℚ) : ℚ :=
  if pname = "rate" then max RATE_RANGE.1 (min RATE_RANGE.2 value)
  else if pname = "pitch" then max PITCH_RANGE.1 (min PITCH_RANGE.2 value)
  else if pname = "volume" then max VOLUME_RANGE.1 (min VOLUME_RANGE.2 value)
  else value

end Config

/-! ## Embedding of `EmpathyEngine.get_vocal_parameters` (src/empathy_engine.py 168-199) -/

/-- src/empathy_engine.py line 184: `rate_multiplier = 0.7 + (0.3 * intensity)`. -/
def rate_multiplier (intensity : ℚ) : ℚ := 0.7 + 0.3 * intensity

/-- src/empathy_engine.py line 187: `pitch_multiplier = 0.85 + (0.3 * intensity)`. -/
def pitch_multiplier (intensity : ℚ) : ℚ := 0.85 + 0.3 * intensity

/-- src/empathy_engine.py line 190: `volume_multiplier = 0.6 + (0.4 * intensity)`. -/
def volume_multiplier (intensity : ℚ) : ℚ := 0.6 + 0.4 * intensity

/-- The dictionary returned by `get_vocal_parameters`. -/
structure VocalParams where
  rate : ℚ
  pitch : ℚ
  volume : ℚ
  description : String
deriving DecidableEq, Repr

/-- src/empathy_engine.py lines 168-199: clamp intensity, look up the base
profile, scale each field by its multiplier and clamp to the absolute range. -/
def get_vocal_parameters (emotion : String) (intensity : ℚ) : VocalParams :=
  let i := Config.validate_intensity intensity
  let base := Config.get_emotion_mapping emotion
  { rate := Config.validate_vocal_parameter "rate" (base.rate * rate_multiplier i)
    pitch := Config.validate_vocal_parameter "pitch" (base.pitch * pitch_multiplier i)
    volume := Config.validate_vocal_parameter "volume" (base.volume * volume_multiplier i)
    description := base.description }

/-! ## Embedding of `EmpathyEngine._combine_emotion_results` (src/empathy_engine.py 113-166) -/

/-- src/empathy_engine.py lines 119-124: VADER compound score to emotion label. -/
def vader_emotion (compound : ℚ) : String :=
  if compound ≥ 0.05 then "joy"
  else if compound ≤ -0.05 then "sadness"
  else "neutral"

/-- src/empathy_engine.py lines 127-132: TextBlob polarity to emotion label. -/
def blob_emotion (polarity : ℚ) : String :=
  if polarity > 0.1 then "joy"
  else if polarity < -0.1 then "sadness"
  else "neutral"

/-- src/empathy_engine.py lines 134-149: the parallel `emotions`/`confidences`
lists, as one list of (label, weight) pairs in append order: VADER with weight
`|compound| * 0.4`, TextBlob with weight `|polarity| * 0.3`, and the Hugging
Face result with weight `hf_confidence * 0.3` only when `hf_emotion` is truthy
(not `None` and not the empty string). -/
def combine_signals (compound polarity : ℚ) (hf_emotion : Option String)
    (hf_confidence : ℚ) : List (String × ℚ) :=
  [(vader_emotion compound, |compound| * 0.4),
   (blob_emotion polarity, |polarity| * 0.3)] ++
  (match hf_emotion with
   | some e => if e ≠ "" then [(e, hf_confidence * 0.3)] else []
   | none => [])

/-- The `emotion_counts` dictionary of src/empathy_engine.py lines 153-158,
as an insertion-ordered association list: adding a (label, weight) pair either
increments an existing key in place or appends a new key at the end. -/
def add_weight : List (String × ℚ) → String × ℚ → List (String × ℚ)
  | [], s => [s]
  | (e, w) :: rest, s =>
    if e = s.1 then (e, w + s.2) :: rest else (e, w) :: add_weight rest s

/-- src/empathy_engine.py lines 153-158: fold all signals into the
insertion-ordered `emotion_counts` association list. -/
def emotion_counts (signals : List (String × ℚ)) : List (String × ℚ) :=
  signals.foldl add_weight []

/-- Python's `max(emotion_counts, key=emotion_counts.get)` (line 160): scan in
insertion order keeping the current best unless a strictly larger weight
appears, so the first key attaining the maximum wins. -/
def max_by_weight : List (String × ℚ) → String × ℚ → String × ℚ
  | [], best => best
  | c :: rest, best => max_by_weight rest (if c.2 > best.2 then c else best)

/-- src/empathy_engine.py lines 151-166: if the signal list is empty return
`("neutral", 0.5)`, otherwise group weights by label and return the label with
the maximum summed weight together with that sum. -/
def fuse (signals : List (String × ℚ)) : String × ℚ :=
  match emotion_counts signals with
  | [] => ("neutral", 0.5)
  | c :: rest => max_by_weight rest c

/-- src/empathy_engine.py lines 113-166: `_combine_emotion_results`.
`subjectivity` is accepted (line 114) but never used by the combination. -/
def combine_emotion_results (compound polarity subjectivity : ℚ)
    (hf_emotion : Option String) (hf_confidence : ℚ) : String × ℚ :=
  fuse (combine_signals compound polarity hf_emotion hf_confidence)

/-! ## Embedding of `EmpathyEngine.detect_emotion` (src/empathy_engine.py 75-111)

The three external scorers are collaborators (spec §6): we take the VADER
compound score and the TextBlob polarity/subjectivity as inputs, and the
classifier call as `Option (Except Unit (List (String × ℚ)))` — `none` when
`self.emotion_classifier` is `None` (unavailable), `some (.error ())` when the
call raises (caught at lines 102-103), `some (.ok scores)` when it returns a
list of label/score dicts (`hf_results[0]`). -/

/-- Python's `str.lower()` on the ASCII labels this engine deals in:
lowercase every character. -/
def py_lower (s : String) : String := ⟨s.data.map Char.toLower⟩

/-- Python's `max(hf_results[0], key=lambda x: x['score'])` (line 99): first
element attaining the maximal score; `none` on the empty list (where Python
`max` would raise, which line 102 catches). -/
def pick_best_score : List (String × ℚ) → Option (String × ℚ)
  | [] => none
  | x :: xs => some (xs.foldl (fun b y => if y.2 > b.2 then y else b) x)

/-- src/empathy_engine.py lines 90-108: compute `hf_emotion` (lowercased best
label) and `hf_confidence`, leaving them `None`/`0.0` when the classifier is
unavailable, raises, or returns no scores, then combine all signals. -/
def detect_emotion (compound polarity subjectivity : ℚ)
    (classifier : Option (Except Unit (List (String × ℚ)))) : String × ℚ :=
  let hf : Option String × ℚ :=
    match classifier with
    | some (Except.ok results) =>
      match pick_best_score results with
      | some best => (some (py_lower best.1), best.2)
      | none => (none, 0.0)
    | _ => (none, 0.0)
  combine_emotion_results compound polarity subjectivity hf.1 hf.2

/-! ## Embedding of `EmpathyEngine.synthesize_with_emotion` (src/empathy_engine.py 201-233) -/

/-- Python truthiness of an `Optional[str]`: `None` and `""` are falsy. -/
def truthy_str : Option String → Bool
  | none => false
  | some s => s ≠ ""

/-- The (emotion, confidence, vocal parameters) part of the dictionary built at
src/empathy_engine.py lines 228-233 (the audio file path is produced by the
external synthesis collaborator and carries no further logic). -/
structure SynthesisOutcome where
  emotion : String
  confidence : ℚ
  vocal_parameters : VocalParams
deriving DecidableEq, Repr

/-- src/empathy_engine.py lines 215-233: `if emotion_override:` use the
lowercased override with confidence 1.0, otherwise run detection (modelled as
the collaborator function `detect` applied to the text); then always map the
resolved emotion and intensity to vocal parameters. -/
def synthesize_with_emotion (detect : String → String × ℚ) (text : String)
    (emotion_override : Option String) (intensity : ℚ) : SynthesisOutcome :=
  let ec : String × ℚ :=
    if truthy_str emotion_override then
      (py_lower (emotion_override.getD ""), 1.0)
    else
      detect text
  { emotion := ec.1
    confidence := ec.2
    vocal_parameters := get_vocal_parameters ec.1 intensity }

/-! ## Embedding of the audio transform chain of `_generate_audio`
(src/empathy_engine.py 258-276)

A pydub `AudioSegment` is modelled by its raw sample data and its frame rate.
pydub itself is an external collaborator: `set_frame_rate`'s resampler and
`speedup` are taken as parameters, except for `set_frame_rate`'s documented
short-circuit (returning the segment unchanged when the target rate equals the
current rate), which is what the code path at line 269 exercises. -/

structure AudioSegment where
  raw_data : List Int
  frame_rate : ℤ
deriving DecidableEq, Repr

/-- Python `int(...)` on a rational: truncation toward zero. -/
def py_int (q : ℚ) : ℤ :=
  if 0 ≤ q then ⌊q⌋ else -⌊-q⌋

/-- pydub's `AudioSegment.set_frame_rate`: identity when the target equals the
current frame rate, otherwise resample the data (via the abstract resampler
`ratecv`) and relabel. -/
def set_frame_rate (ratecv : List Int → ℤ → ℤ → List Int)
    (a : AudioSegment) (r : ℤ) : AudioSegment :=
  if r = a.frame_rate then a
  else { raw_data := ratecv a.raw_data a.frame_rate r, frame_rate := r }

/-- src/empathy_engine.py lines 264-269: the pitch-adjustment step. When
`|pitch - 1.0| > 0.05`, spawn the same data at `int(frame_rate * pitch)` and
call `set_frame_rate` on the *new* segment with the *new* segment's own frame
rate (the code reassigns `audio` before reading `audio.frame_rate`). -/
def pitch_step (ratecv : List Int → ℤ → ℤ → List Int)
    (a : AudioSegment) (pitch : ℚ) : AudioSegment :=
  if |pitch - 1.0| > 0.05 then
    let new_sample_rate : ℤ := py_int ((a.frame_rate : ℚ) * pitch)
    let spawned : AudioSegment := { raw_data := a.raw_data, frame_rate := new_sample_rate }
    set_frame_rate ratecv spawned spawned.frame_rate
  else a

/-- src/empathy_engine.py lines 272-273: the tempo-adjustment step. When
`|rate - 1.0| > 0.05`, apply the external `speedup` collaborator. -/
def tempo_step (spd : AudioSegment → ℚ → AudioSegment)
    (a : AudioSegment) (rate : ℚ) : AudioSegment :=
  if |rate - 1.0| > 0.05 then spd a rate else a

/-- src/empathy_engine.py lines 258-276: the transform chain applied to the
synthesized waveform — pitch step first, then tempo step (export preserves the
segment and is the file-store collaborator's concern). -/
def transform (ratecv : List Int → ℤ → ℤ → List Int)
    (spd : AudioSegment → ℚ → AudioSegment)
    (a : AudioSegment) (pitch rate : ℚ) : AudioSegment :=
  tempo_step spd (pitch_step ratecv a pitch) rate

/-! ## Derived notions used by the statements -/

/-- The total weight a signal list assigns to one label: the sum of the weights
of the signals carrying that label (the spec's "summed weight"). -/
def weight_sum (l : String) (signals : List (String × ℚ)) : ℚ :=
  ((signals.filter (fun s => s.1 == l)).map Prod.snd).sum

/-! ## Helper lemmas: the parameter mapper -/

lemma clamp_mem {lo hi v : ℚ} (h : lo ≤ hi) :
    lo ≤ max lo (min hi v) ∧ max lo (min hi v) ≤ hi :=
  ⟨le_max_left _ _, max_le h (min_le_left _ _)⟩

lemma validate_rate_eq (v : ℚ) :
    Config.validate_vocal_parameter "rate" v = max 0.5 (min 2.0 v) := by
  simp +decide [Config.validate_vocal_parameter, Config.RATE_RANGE]

lemma validate_pitch_eq (v : ℚ) :
    Config.validate_vocal_parameter "pitch" v = max 0.5 (min 2.0 v) := by
  simp +decide [Config.validate_vocal_parameter, Config.PITCH_RANGE]

lemma validate_volume_eq (v : ℚ) :
    Config.validate_vocal_parameter "volume" v = max 0.1 (min 1.0 v) := by
  simp +decide [Config.validate_vocal_parameter, Config.VOLUME_RANGE]

lemma get_vocal_parameters_rate (e : String) (i : ℚ) :
    (get_vocal_parameters e i).rate =
      max 0.5 (min 2.0
        ((Config.get_emotion_mapping e).rate * rate_multiplier (Config.validate_intensity i))) := by
  simp [get_vocal_parameters, validate_rate_eq]

lemma get_vocal_parameters_pitch (e : String) (i : ℚ) :
    (get_vocal_parameters e i).pitch =
      max 0.5 (min 2.0
        ((Config.get_emotion_mapping e).pitch * pitch_multiplier (Config.validate_intensity i))) := by
  simp [get_vocal_parameters, validate_pitch_eq]

lemma get_vocal_parameters_volume (e : String) (i : ℚ) :
    (get_vocal_parameters e i).volume =
      max 0.1 (min 1.0
        ((Config.get_emotion_mapping e).volume * volume_multiplier (Config.validate_intensity i))) := by
  simp [get_vocal_parameters, validate_volume_eq]

lemma validate_intensity_one : Config.validate_intensity 1.0 = 1.0 := by
  rw [Config.validate_intensity, min_eq_right (by norm_num), max_eq_right (by norm_num)]

/-! ## C1, C2, C3: the parameter-mapper claims -/

/-- C1: for every emotion string and every rational intensity, the vocal
parameters returned by `get_vocal_parameters` lie within the absolute bounds:
rate in [0.5, 2.0], pitch in [0.5, 2.0], volume in [0.1, 1.0]. The embedded
function is total by construction (it is defined for all inputs and never
fails). -/
theorem vocal_parameters_within_bounds (emotion : String) (intensity : ℚ) :
    (0.5 ≤ (get_vocal_parameters emotion intensity).rate ∧
      (get_vocal_parameters emotion intensity).rate ≤ 2.0) ∧
    (0.5 ≤ (get_vocal_parameters emotion intensity).pitch ∧
      (get_vocal_parameters emotion intensity).pitch ≤ 2.0) ∧
    (0.1 ≤ (get_vocal_parameters emotion intensity).volume ∧
      (get_vocal_parameters emotion intensity).volume ≤ 1.0) := by
  rw [get_vocal_parameters_rate, get_vocal_parameters_pitch, get_vocal_parameters_volume]
  exact ⟨clamp_mem (by norm_num), clamp_mem (by norm_num), clamp_mem (by norm_num)⟩

/-- C2 counterexample: at intensity 1.0 the pitch multiplier is 1.15, not 1.0,
so for the emotion "joy" the mapped pitch is 1.03 × 1.15 = 1.1845, which
differs from the profile's base pitch 1.03 (a value the clamp leaves
untouched). -/
theorem pitch_at_intensity_one_differs_from_base :
    pitch_multiplier 1.0 = 1.15 ∧
    (get_vocal_parameters "joy" 1.0).pitch = 1.1845 ∧
    (Config.get_emotion_mapping "joy").pitch = 1.03 ∧
    (1.1845 : ℚ) ≠ 1.03 := by
  refine ⟨by norm_num [pitch_multiplier], ?_, ?_, by norm_num⟩
  · rw [get_vocal_parameters_pitch, validate_intensity_one]
    norm_num [Config.get_emotion_mapping, Config.EMOTION_MAPPINGS, List.lookup,
      pitch_multiplier]
  · norm_num [Config.get_emotion_mapping, Config.EMOTION_MAPPINGS, List.lookup]

/-- C2 amended: at intensity exactly 1.0 the rate and volume multipliers equal
1.0, so `get_vocal_parameters` returns rate and volume equal to the profile's
base values after clamping; the pitch multiplier equals 1.15, so the returned
pitch is the base pitch × 1.15 after clamping, not the base pitch. -/
theorem parameters_at_intensity_one (emotion : String) :
    rate_multiplier 1.0 = 1 ∧ volume_multiplier 1.0 = 1 ∧ pitch_multiplier 1.0 = 1.15 ∧
    (get_vocal_parameters emotion 1.0).rate =
      max 0.5 (min 2.0 (Config.get_emotion_mapping emotion).rate) ∧
    (get_vocal_parameters emotion 1.0).volume =
      max 0.1 (min 1.0 (Config.get_emotion_mapping emotion).volume) ∧
    (get_vocal_parameters emotion 1.0).pitch =
      max 0.5 (min 2.0 ((Config.get_emotion_mapping emotion).pitch * 1.15)) := by
  have hr : rate_multiplier 1.0 = 1 := by norm_num [rate_multiplier]
  have hv : volume_multiplier 1.0 = 1 := by norm_num [volume_multiplier]
  have hp : pitch_multiplier 1.0 = 1.15 := by norm_num [pitch_multiplier]
  refine ⟨hr, hv, hp, ?_, ?_, ?_⟩
  · rw [get_vocal_parameters_rate, validate_intensity_one, hr, mul_one]
  · rw [get_vocal_parameters_volume, validate_intensity_one, hv, mul_one]
  · rw [get_vocal_parameters_pitch, validate_intensity_one, hp]

/-- C3: the three pre-clamp intensity multipliers are strictly increasing in
intensity: for intensities i₁ < i₂ within the clamped range [0.1, 2.0], each
multiplier at i₁ is strictly smaller than at i₂. -/
theorem multipliers_strictly_increasing (i₁ i₂ : ℚ)
    (hlo : 0.1 ≤ i₁) (hlt : i₁ < i₂) (hhi : i₂ ≤ 2.0) :
    rate_multiplier i₁ < rate_multiplier i₂ ∧
    pitch_multiplier i₁ < pitch_multiplier i₂ ∧
    volume_multiplier i₁ < volume_multiplier i₂ := by
  unfold rate_multiplier pitch_multiplier volume_multiplier
  refine ⟨by nlinarith, by nlinarith, by nlinarith⟩

/-- Witness for C3 at i₁ = 0.5, i₂ = 1.5. -/
theorem multipliers_strictly_increasing_witness :
    (0.1 : ℚ) ≤ 0.5 ∧ (0.5 : ℚ) < 1.5 ∧ (1.5 : ℚ) ≤ 2.0 ∧
    (rate_multiplier 0.5 < rate_multiplier 1.5 ∧
     pitch_multiplier 0.5 < pitch_multiplier 1.5 ∧
     volume_multiplier 0.5 < volume_multiplier 1.5) :=
  ⟨by norm_num, by norm_num, by norm_num,
   multipliers_strictly_increasing 0.5 1.5 (by norm_num) (by norm_num) (by norm_num)⟩

/-! ## Helper lemmas: signal fusion

`emotion_counts` is an insertion-ordered association list; we show its keys are
the labels of the signal list without duplicates, that the value stored at a
key is the summed weight of that label, and that `max_by_weight` picks an entry
of maximal value. -/

lemma weight_sum_nil (l : String) : weight_sum l [] = 0 := rfl

lemma weight_sum_cons (l : String) (s : String × ℚ) (t : List (String × ℚ)) :
    weight_sum l (s :: t) = (if s.1 = l then s.2 else 0) + weight_sum l t := by
  by_cases h : s.1 = l
  · simp [weight_sum, List.filter_cons, h]
  · simp [weight_sum, List.filter_cons, h]

lemma add_weight_cons_hit (e : String) (w : ℚ) (rest : List (String × ℚ))
    (s : String × ℚ) (he : e = s.1) :
    add_weight ((e, w) :: rest) s = (e, w + s.2) :: rest := by
  simp [add_weight, he]

lemma add_weight_cons_miss (e : String) (w : ℚ) (rest : List (String × ℚ))
    (s : String × ℚ) (he : ¬e = s.1) :
    add_weight ((e, w) :: rest) s = (e, w) :: add_weight rest s := by
  simp [add_weight, he]

lemma weight_sum_add_weight (acc : List (String × ℚ)) (s : String × ℚ) (l : String) :
    weight_sum l (add_weight acc s) = weight_sum l acc + (if s.1 = l then s.2 else 0) := by
  induction acc with
  | nil => simp [add_weight, weight_sum_cons, weight_sum_nil, add_comm]
  | cons head rest ih =>
    obtain ⟨e, w⟩ := head
    by_cases he : e = s.1
    · subst he
      rw [add_weight_cons_hit _ _ _ _ rfl]
      by_cases hl : s.1 = l
      · simp only [weight_sum_cons, hl, if_true, ite_true]
        ring
      · simp [weight_sum_cons, hl]
    · rw [add_weight_cons_miss _ _ _ _ he]
      simp only [weight_sum_cons, ih]
      ring

lemma weight_sum_foldl (signals : List (String × ℚ)) (acc : List (String × ℚ)) (l : String) :
    weight_sum l (signals.foldl add_weight acc) = weight_sum l acc + weight_sum l signals := by
  induction signals generalizing acc with
  | nil => simp [weight_sum_nil]
  | cons s t ih =>
    rw [List.foldl_cons, ih, weight_sum_add_weight, weight_sum_cons]
    ring

lemma weight_sum_emotion_counts (signals : List (String × ℚ)) (l : String) :
    weight_sum l (emotion_counts signals) = weight_sum l signals := by
  rw [emotion_counts, weight_sum_foldl, weight_sum_nil, zero_add]

lemma mem_fst_add_weight {acc : List (String × ℚ)} {s : String × ℚ} {x : String} :
    x ∈ (add_weight acc s).map Prod.fst ↔ x ∈ acc.map Prod.fst ∨ x = s.1 := by
  induction acc with
  | nil => simp [add_weight]
  | cons head rest ih =>
    obtain ⟨e, w⟩ := head
    by_cases he : e = s.1
    · subst he
      rw [add_weight_cons_hit _ _ _ _ rfl]
      simp only [List.map_cons, List.mem_cons]
      tauto
    · rw [add_weight_cons_miss _ _ _ _ he]
      simp only [List.map_cons, List.mem_cons, ih]
      tauto

lemma nodup_fst_add_weight {acc : List (String × ℚ)} (s : String × ℚ)
    (h : (acc.map Prod.fst).Nodup) : ((add_weight acc s).map Prod.fst).Nodup := by
  induction acc with
  | nil => simp [add_weight]
  | cons head rest ih =>
    obtain ⟨e, w⟩ := head
    simp only [List.map_cons, List.nodup_cons] at h
    by_cases he : e = s.1
    · rw [add_weight_cons_hit _ _ _ _ he]
      simp only [List.map_cons, List.nodup_cons]
      exact h
    · rw [add_weight_cons_miss _ _ _ _ he]
      simp only [List.map_cons, List.nodup_cons]
      refine ⟨?_, ih h.2⟩
      rw [mem_fst_add_weight]
      rintro (hmem | hrfl)
      · exact h.1 hmem
      · exact he hrfl

lemma mem_fst_foldl {signals acc : List (String × ℚ)} {x : String} :
    x ∈ (signals.foldl add_weight acc).map Prod.fst ↔
      x ∈ acc.map Prod.fst ∨ x ∈ signals.map Prod.fst := by
  induction signals generalizing acc with
  | nil => simp
  | cons s t ih =>
    rw [List.foldl_cons, ih, mem_fst_add_weight]
    simp only [List.map_cons, List.mem_cons]
    tauto

lemma nodup_fst_emotion_counts (signals : List (String × ℚ)) :
    ((emotion_counts signals).map Prod.fst).Nodup := by
  rw [emotion_counts]
  have h : ∀ t acc : List (String × ℚ), (acc.map Prod.fst).Nodup →
      ((t.foldl add_weight acc).map Prod.fst).Nodup := by
    intro t
    induction t with
    | nil => intro acc hacc; simpa using hacc
    | cons s u ih =>
      intro acc hacc
      rw [List.foldl_cons]
      exact ih _ (nodup_fst_add_weight s hacc)
  exact h signals [] (by simp)

lemma weight_sum_eq_zero_of_not_mem {acc : List (String × ℚ)} {l : String}
    (h : l ∉ acc.map Prod.fst) : weight_sum l acc = 0 := by
  induction acc with
  | nil => rfl
  | cons s t ih =>
    simp only [List.map_cons, List.mem_cons, not_or] at h
    rw [weight_sum_cons, if_neg (fun hc => h.1 hc.symm), ih h.2, add_zero]

lemma weight_sum_eq_of_mem {acc : List (String × ℚ)} {e : String} {w : ℚ}
    (hmem : (e, w) ∈ acc) (hnd : (acc.map Prod.fst).Nodup) : weight_sum e acc = w := by
  induction acc with
  | nil => cases hmem
  | cons s t ih =>
    simp only [List.map_cons, List.nodup_cons] at hnd
    rcases List.mem_cons.mp hmem with hhead | htail
    · subst hhead
      rw [weight_sum_cons, if_pos rfl,
        weight_sum_eq_zero_of_not_mem (by simpa using hnd.1), add_zero]
    · have hne : s.1 ≠ e := by
        intro hc
        exact hnd.1 (hc ▸ List.mem_map_of_mem Prod.fst htail)
      rw [weight_sum_cons, if_neg hne, ih htail hnd.2, zero_add]

lemma max_by_weight_spec (rest : List (String × ℚ)) (best : String × ℚ) :
    max_by_weight rest best ∈ best :: rest ∧
    ∀ p ∈ best :: rest, p.2 ≤ (max_by_weight rest best).2 := by
  induction rest generalizing best with
  | nil =>
    refine ⟨List.mem_cons_self _ _, ?_⟩
    intro p hp
    rcases List.mem_cons.mp hp with h | h
    · simp [max_by_weight, h]
    · cases h
  | cons c t ih =>
    by_cases hc : c.2 > best.2
    · have hstep : max_by_weight (c :: t) best = max_by_weight t c := by
        show max_by_weight t (if c.2 > best.2 then c else best) = max_by_weight t c
        rw [if_pos hc]
      obtain ⟨ihmem, ihle⟩ := ih c
      constructor
      · rw [hstep]
        rcases List.mem_cons.mp ihmem with h | h
        · rw [h]
          exact List.mem_cons_of_mem _ (List.mem_cons_self _ _)
        · exact List.mem_cons_of_mem _ (List.mem_cons_of_mem _ h)
      · intro p hp
        rw [hstep]
        rcases List.mem_cons.mp hp with h | h
        · rw [h]
          exact le_trans (le_of_lt hc) (ihle c (List.mem_cons_self _ _))
        · exact ihle p h
    · have hstep : max_by_weight (c :: t) best = max_by_weight t best := by
        show max_by_weight t (if c.2 > best.2 then c else best) = max_by_weight t best
        rw [if_neg hc]
      obtain ⟨ihmem, ihle⟩ := ih best
      constructor
      · rw [hstep]
        rcases List.mem_cons.mp ihmem with h | h
        · rw [h]
          exact List.mem_cons_self _ _
        · exact List.mem_cons_of_mem _ (List.mem_cons_of_mem _ h)
      · intro p hp
        rw [hstep]
        rcases List.mem_cons.mp hp with h | h
        · rw [h]
          exact ihle best (List.mem_cons_self _ _)
        · rcases List.mem_cons.mp h with h' | h'
          · rw [h']
            exact le_trans (not_lt.mp hc) (ihle best (List.mem_cons_self _ _))
          · exact ihle p (List.mem_cons_of_mem _ h')

/-- Core fusion lemma: on a nonempty signal list, `fuse` returns a label whose
summed weight is its confidence, and no label occurring in the signals has a
larger summed weight. -/
lemma fuse_max (signals : List (String × ℚ)) (hne : signals ≠ []) :
    (fuse signals).2 = weight_sum (fuse signals).1 signals ∧
    ∀ l ∈ signals.map Prod.fst, weight_sum l signals ≤ (fuse signals).2 := by
  have hkeys : ∀ x : String, x ∈ (emotion_counts signals).map Prod.fst ↔
      x ∈ signals.map Prod.fst := by
    intro x
    rw [emotion_counts, mem_fst_foldl]
    simp
  have hcne : emotion_counts signals ≠ [] := by
    obtain ⟨s, t, rfl⟩ := List.exists_cons_of_ne_nil hne
    intro hc
    have : s.1 ∈ (emotion_counts ((s :: t))).map Prod.fst := by
      rw [hkeys]; simp
    rw [hc] at this
    cases this
  obtain ⟨c, rest, hc⟩ := List.exists_cons_of_ne_nil hcne
  have hfuse : fuse signals = max_by_weight rest c := by
    rw [fuse, hc]
  obtain ⟨hmem, hle⟩ := max_by_weight_spec rest c
  rw [← hc] at hmem hle
  have hnd := nodup_fst_emotion_counts signals
  have hval : weight_sum (fuse signals).1 (emotion_counts signals) = (fuse signals).2 := by
    rw [hfuse]
    exact weight_sum_eq_of_mem hmem hnd
  constructor
  · rw [← weight_sum_emotion_counts, hval]
  · intro l hl
    rw [← hkeys] at hl
    obtain ⟨p, hp, hpl⟩ := List.mem_map.mp hl
    have : weight_sum l (emotion_counts signals) = p.2 := by
      subst hpl
      exact weight_sum_eq_of_mem (by simpa using hp) hnd
    rw [← weight_sum_emotion_counts, this, hfuse]
    exact hle p hp

lemma weight_sum_nonneg {signals : List (String × ℚ)} {l : String}
    (h : ∀ p ∈ signals, 0 ≤ p.2) : 0 ≤ weight_sum l signals := by
  induction signals with
  | nil => simp [weight_sum_nil]
  | cons s t ih =>
    rw [weight_sum_cons]
    have hs := h s (List.mem_cons_self _ _)
    have ht := ih (fun p hp => h p (List.mem_cons_of_mem _ hp))
    by_cases hl : s.1 = l
    · rw [if_pos hl]; linarith
    · rw [if_neg hl]; linarith

lemma weight_sum_le_total {signals : List (String × ℚ)} {l : String}
    (h : ∀ p ∈ signals, 0 ≤ p.2) :
    weight_sum l signals ≤ (signals.map Prod.snd).sum := by
  induction signals with
  | nil => simp [weight_sum_nil]
  | cons s t ih =>
    rw [weight_sum_cons, List.map_cons, List.sum_cons]
    have hs := h s (List.mem_cons_self _ _)
    have ht := ih (fun p hp => h p (List.mem_cons_of_mem _ hp))
    by_cases hl : s.1 = l
    · rw [if_pos hl]; linarith
    · rw [if_neg hl]; linarith

/-! ## C4 and C10: the fusion claims -/

/-- C4: signal fusion is total (the embedded `fuse` is a function defined on
every signal list, so it never fails); on the empty list — all sources
disabled or failed — it returns exactly ("neutral", 0.5); on any nonempty list
it returns a label attaining the maximum summed weight, with that summed
weight as the confidence. -/
theorem fusion_default_and_argmax (signals : List (String × ℚ)) :
    (signals = [] → fuse signals = ("neutral", 0.5)) ∧
    (signals ≠ [] →
      (fuse signals).2 = weight_sum (fuse signals).1 signals ∧
      ∀ l ∈ signals.map Prod.fst, weight_sum l signals ≤ (fuse signals).2) := by
  constructor
  · rintro rfl
    rfl
  · exact fuse_max signals

/-- Witness for C4: the empty list yields the neutral default, and on a
concrete three-signal list the returned confidence is the summed weight of the
winning label and dominates every label's summed weight. -/
theorem fusion_default_and_argmax_witness :
    fuse [] = ("neutral", 0.5) ∧
    ((fuse [("joy", (1:ℚ)/4), ("sadness", 1/2), ("joy", 3/8)]).2 =
      weight_sum (fuse [("joy", (1:ℚ)/4), ("sadness", 1/2), ("joy", 3/8)]).1
        [("joy", (1:ℚ)/4), ("sadness", 1/2), ("joy", 3/8)] ∧
     ∀ l ∈ [("joy", (1:ℚ)/4), ("sadness", 1/2), ("joy", 3/8)].map Prod.fst,
       weight_sum l [("joy", (1:ℚ)/4), ("sadness", 1/2), ("joy", 3/8)] ≤
         (fuse [("joy", (1:ℚ)/4), ("sadness", 1/2), ("joy", 3/8)]).2) :=
  ⟨(fusion_default_and_argmax []).1 rfl,
   (fusion_default_and_argmax [("joy", (1:ℚ)/4), ("sadness", 1/2), ("joy", 3/8)]).2
     (by simp)⟩

/-- C10: under the documented ranges of the external sources — lexicon
compound score in [-1, 1], polarity in [-1, 1], classifier confidence in
[0, 1] — the confidence returned by `_combine_emotion_results` lies in [0, 1]:
the summed weights are bounded by 0.4 + 0.3 + 0.3 = 1.0. -/
theorem confidence_within_unit_interval (compound polarity subjectivity hc : ℚ)
    (hf_emotion : Option String)
    (h1 : |compound| ≤ 1) (h2 : |polarity| ≤ 1) (h3 : 0 ≤ hc) (h4 : hc ≤ 1) :
    0 ≤ (combine_emotion_results compound polarity subjectivity hf_emotion hc).2 ∧
    (combine_emotion_results compound polarity subjectivity hf_emotion hc).2 ≤ 1 := by
  have habs1 : (0:ℚ) ≤ |compound| := abs_nonneg _
  have habs2 : (0:ℚ) ≤ |polarity| := abs_nonneg _
  have hresult : combine_emotion_results compound polarity subjectivity hf_emotion hc =
      fuse (combine_signals compound polarity hf_emotion hc) := rfl
  have hne : combine_signals compound polarity hf_emotion hc ≠ [] := by
    simp [combine_signals]
  have hnn : ∀ p ∈ combine_signals compound polarity hf_emotion hc, 0 ≤ p.2 := by
    intro p hp
    rcases hf_emotion with _ | e
    · simp only [combine_signals, List.append_nil, List.mem_cons, List.not_mem_nil,
        or_false] at hp
      rcases hp with rfl | rfl
      · exact mul_nonneg habs1 (by norm_num)
      · exact mul_nonneg habs2 (by norm_num)
    · by_cases he : e ≠ ""
      · simp only [combine_signals, if_pos he, List.mem_append, List.mem_cons,
          List.not_mem_nil, or_false] at hp
        rcases hp with (rfl | rfl) | rfl
        · exact mul_nonneg habs1 (by norm_num)
        · exact mul_nonneg habs2 (by norm_num)
        · exact mul_nonneg h3 (by norm_num)
      · simp only [combine_signals, if_neg he, List.append_nil, List.mem_cons,
          List.not_mem_nil, or_false] at hp
        rcases hp with rfl | rfl
        · exact mul_nonneg habs1 (by norm_num)
        · exact mul_nonneg habs2 (by norm_num)
  have htot : ((combine_signals compound polarity hf_emotion hc).map Prod.snd).sum ≤ 1 := by
    rcases hf_emotion with _ | e
    · simp only [combine_signals, List.append_nil, List.map_cons, List.map_nil,
        List.sum_cons, List.sum_nil]
      nlinarith
    · by_cases he : e ≠ ""
      · simp only [combine_signals, if_pos he, List.map_append, List.map_cons,
          List.map_nil, List.sum_append, List.sum_cons, List.sum_nil]
        nlinarith
      · simp only [combine_signals, if_neg he, List.append_nil, List.map_cons,
          List.map_nil, List.sum_cons, List.sum_nil]
        nlinarith
  obtain ⟨hconf, hmax⟩ := fuse_max _ hne
  rw [hresult]
  constructor
  · rw [hconf]
    exact weight_sum_nonneg hnn
  · rw [hconf]
    exact le_trans (weight_sum_le_total hnn) htot

/-- Witness for C10 at compound = 1, polarity = 1/2, classifier "joy" with
confidence 1. -/
theorem confidence_within_unit_interval_witness :
    |(1:ℚ)| ≤ 1 ∧ |(1:ℚ)/2| ≤ 1 ∧ (0:ℚ) ≤ 1 ∧ (1:ℚ) ≤ 1 ∧
    (0 ≤ (combine_emotion_results 1 (1/2) 0 (some "joy") 1).2 ∧
     (combine_emotion_results 1 (1/2) 0 (some "joy") 1).2 ≤ 1) :=
  ⟨by norm_num, by rw [abs_of_nonneg (by norm_num)]; norm_num, by norm_num, le_refl 1,
   confidence_within_unit_interval 1 (1/2) 0 1 (some "joy")
     (by norm_num) (by rw [abs_of_nonneg (by norm_num)]; norm_num)
     (by norm_num) (le_refl 1)⟩

/-! ## C5, C8, C9: override and classifier-failure claims -/

/-- C5: when a nonempty emotion override is supplied, detection and fusion are
not invoked — the outcome is independent of the detection collaborator and the
text — the confidence equals exactly 1.0, the override label is lowercased
("ANGER" resolves to "anger" in the witness), and the vocal parameters are
looked up for the lowercased label. -/
theorem override_bypasses_fusion (s : String) (hs : s ≠ "")
    (detect detect' : String → String × ℚ) (text text' : String) (intensity : ℚ) :
    synthesize_with_emotion detect text (some s) intensity =
      synthesize_with_emotion detect' text' (some s) intensity ∧
    (synthesize_with_emotion detect text (some s) intensity).confidence = 1.0 ∧
    (synthesize_with_emotion detect text (some s) intensity).emotion = py_lower s ∧
    (synthesize_with_emotion detect text (some s) intensity).vocal_parameters =
      get_vocal_parameters (py_lower s) intensity := by
  simp [synthesize_with_emotion, truthy_str, hs]

/-- Witness for C5 at the mixed-case override "ANGER", which resolves to
"anger" regardless of the detection collaborator. -/
theorem override_bypasses_fusion_witness :
    "ANGER" ≠ "" ∧
    (synthesize_with_emotion (fun t => ("sadness", 1/4)) "x" (some "ANGER") 1 =
       synthesize_with_emotion (fun t => ("joy", 3/4)) "y" (some "ANGER") 1 ∧
     (synthesize_with_emotion (fun t => ("sadness", 1/4)) "x" (some "ANGER") 1).confidence = 1.0 ∧
     (synthesize_with_emotion (fun t => ("sadness", 1/4)) "x" (some "ANGER") 1).emotion =
       py_lower "ANGER" ∧
     (synthesize_with_emotion (fun t => ("sadness", 1/4)) "x" (some "ANGER") 1).vocal_parameters =
       get_vocal_parameters (py_lower "ANGER") 1) ∧
    py_lower "ANGER" = "anger" :=
  ⟨by decide,
   override_bypasses_fusion "ANGER" (by decide)
     (fun t => ("sadness", 1/4)) (fun t => ("joy", 3/4)) "x" "y" 1,
   by decide⟩

/-- C8: when the classifier is unavailable (`none`) or raises on the call
(`some (.error _)`), its signal is omitted entirely — the fused signal list
has exactly the two non-classifier entries, the lexicon signal with weight
|compound| × 0.4 and the polarity signal with weight |polarity| × 0.3 — and
detection returns exactly the (deterministic) fusion of those two signals. -/
theorem classifier_failure_omitted (compound polarity subjectivity : ℚ)
    (classifier : Option (Except Unit (List (String × ℚ))))
    (h : classifier = none ∨ classifier = some (Except.error ())) :
    detect_emotion compound polarity subjectivity classifier =
      fuse [(vader_emotion compound, |compound| * 0.4),
            (blob_emotion polarity, |polarity| * 0.3)] ∧
    (combine_signals compound polarity none 0).length = 2 := by
  rcases h with rfl | rfl <;>
    exact ⟨by simp [detect_emotion, combine_emotion_results, combine_signals],
           by simp [combine_signals]⟩

/-- Witness for C8: the classifier collaborator is absent; detection still
returns the two-signal fusion. -/
theorem classifier_failure_omitted_witness :
    ((none : Option (Except Unit (List (String × ℚ)))) = none ∨
      (none : Option (Except Unit (List (String × ℚ)))) = some (Except.error ())) ∧
    (detect_emotion 0.8 0.5 0 none =
      fuse [(vader_emotion 0.8, |(0.8:ℚ)| * 0.4), (blob_emotion 0.5, |(0.5:ℚ)| * 0.3)] ∧
     (combine_signals 0.8 0.5 none 0).length = 2) :=
  ⟨Or.inl rfl, classifier_failure_omitted 0.8 0.5 0 none (Or.inl rfl)⟩

/-- C9: an emotion override that is the empty string is falsy in Python's
truth test and is therefore treated as absent: the pipeline behaves exactly as
with no override — detection runs, the fused label and confidence are used —
rather than using the empty label with confidence 1.0. -/
theorem empty_override_runs_detection (detect : String → String × ℚ)
    (text : String) (intensity : ℚ) :
    synthesize_with_emotion detect text (some "") intensity =
      synthesize_with_emotion detect text none intensity ∧
    (synthesize_with_emotion detect text (some "") intensity).confidence =
      (detect text).2 ∧
    (synthesize_with_emotion detect text (some "") intensity).emotion =
      (detect text).1 := by
  simp [synthesize_with_emotion, truthy_str]

/-! ## C6 and C7: the audio transform claims -/

lemma pitch_step_applied (ratecv : List Int → ℤ → ℤ → List Int)
    (a : AudioSegment) (pitch : ℚ) (h : |pitch - 1.0| > 0.05) :
    pitch_step ratecv a pitch =
      set_frame_rate ratecv ⟨a.raw_data, py_int ((a.frame_rate : ℚ) * pitch)⟩
        (py_int ((a.frame_rate : ℚ) * pitch)) := by
  rw [pitch_step, if_pos h]

/-- C6: with pitch = 1.0 and rate = 1.0 the transform skips both steps and
returns the waveform unchanged, so its sample data is byte-identical; in
general each step is applied precisely when its factor differs from 1.0 by
more than 0.05 in absolute value (an absolute difference, not a relative one),
and otherwise returns its input unchanged. -/
theorem transform_noop_threshold (ratecv : List Int → ℤ → ℤ → List Int)
    (spd : AudioSegment → ℚ → AudioSegment) (a : AudioSegment) :
    transform ratecv spd a 1.0 1.0 = a ∧
    (transform ratecv spd a 1.0 1.0).raw_data = a.raw_data ∧
    (∀ pitch : ℚ, |pitch - 1.0| ≤ 0.05 → pitch_step ratecv a pitch = a) ∧
    (∀ pitch : ℚ, |pitch - 1.0| > 0.05 → pitch_step ratecv a pitch =
      set_frame_rate ratecv ⟨a.raw_data, py_int ((a.frame_rate : ℚ) * pitch)⟩
        (py_int ((a.frame_rate : ℚ) * pitch))) ∧
    (∀ rate : ℚ, |rate - 1.0| ≤ 0.05 → tempo_step spd a rate = a) ∧
    (∀ rate : ℚ, |rate - 1.0| > 0.05 → tempo_step spd a rate = spd a rate) := by
  have h1 : ¬(|(1.0:ℚ) - 1.0| > 0.05) := by norm_num
  have hmain : transform ratecv spd a 1.0 1.0 = a := by
    rw [transform, pitch_step, if_neg h1, tempo_step, if_neg h1]
  refine ⟨hmain, by rw [hmain], ?_, pitch_step_applied ratecv a, ?_, ?_⟩
  · intro pitch hp
    rw [pitch_step, if_neg (not_lt.mpr hp)]
  · intro rate hr
    rw [tempo_step, if_neg (not_lt.mpr hr)]
  · intro rate hr
    rw [tempo_step, if_pos hr]

/-- Witness for C6: a concrete waveform is untouched at (1.0, 1.0), the pitch
step is skipped at factor 1.02 (|1.02 − 1| ≤ 0.05), and the tempo step fires
at factor 1.2. -/
theorem transform_noop_threshold_witness :
    transform (fun d r₁ r₂ => d) (fun b r => b) ⟨[0, 1, 2], 8000⟩ 1.0 1.0 =
      ⟨[0, 1, 2], 8000⟩ ∧
    pitch_step (fun d r₁ r₂ => d) ⟨[0, 1, 2], 8000⟩ 1.02 = ⟨[0, 1, 2], 8000⟩ ∧
    tempo_step (fun b r => b) ⟨[0, 1, 2], 8000⟩ 1.2 =
      (fun b r => b) (⟨[0, 1, 2], 8000⟩ : AudioSegment) 1.2 :=
  ⟨(transform_noop_threshold (fun d r₁ r₂ => d) (fun b r => b) ⟨[0, 1, 2], 8000⟩).1,
   (transform_noop_threshold (fun d r₁ r₂ => d) (fun b r => b) ⟨[0, 1, 2], 8000⟩).2.2.1
     1.02 (by rw [show (1.02:ℚ) - 1.0 = 0.02 by norm_num, abs_of_nonneg (by norm_num)]; norm_num),
   (transform_noop_threshold (fun d r₁ r₂ => d) (fun b r => b) ⟨[0, 1, 2], 8000⟩).2.2.2.2.2
     1.2 (by rw [show (1.2:ℚ) - 1.0 = 0.2 by norm_num, abs_of_nonneg (by norm_num)]; norm_num)⟩

/-- C7 (code bug at the pitch step): the steps do run in the fixed order —
pitch first, then tempo, then export — but the pitch adjustment never
resamples back to the original playback rate: line 269 calls `set_frame_rate`
on the already re-spawned segment with that segment's own new frame rate, a
no-op. Concretely, at 44100 Hz with pitch 1.2 and rate 1.0 the output segment
keeps frame rate 52920 = int(44100 × 1.2) with byte-identical sample data, for
every resampler and speedup collaborator (the resampler is never invoked),
whereas the claim requires resampling back to 44100 Hz. -/
theorem pitch_step_keeps_raised_rate (ratecv : List Int → ℤ → ℤ → List Int)
    (spd : AudioSegment → ℚ → AudioSegment) :
    transform ratecv spd ⟨[0, 1, 2, 3], 44100⟩ 1.2 1.0 = ⟨[0, 1, 2, 3], 52920⟩ ∧
    (52920 : ℤ) ≠ 44100 := by
  constructor
  · norm_num [transform, pitch_step, tempo_step, set_frame_rate, py_int,
      abs_of_nonneg, abs_of_nonpos, abs_sub_comm]
  · norm_num

end EmpathyEngine
